import Mathlib

/-!
Verification development for the multiemu emulator core.

The Rust sources are shallowly embedded: machine integers (`usize`, `u8`,
`u16`, `u32`) become `Nat` (with `Int` where the source computes in `i128`),
fallible operations (Rust panics: slice indexing out of bounds, `unwrap`,
`unimplemented!`, capacity overflow of `ArrayVec`, division by zero) become
`Option`, and the unbounded resolution loops of the memory bus take explicit
fuel (`none` on exhaustion, where the Rust loop would still be running).
Shared `Arc<Mutex<dyn MemoryComponent>>` handles become indices into an
explicit device store, so aliasing between bus entries is preserved.
-/

set_option autoImplicit false

namespace Multiemu

/-- Half-open byte range `[start, stop)`; Rust `Range<usize>`
(`stop` is the Rust field `end`, which is a reserved word in Lean). -/
structure MRange where
  start : Nat
  stop : Nat
deriving DecidableEq, Repr

/-- `src/component/memory.rs` `relocate_and_crop_range`: the source computes in
`i128`; the final `as usize` casts are modelled by `Int.toNat`, which agrees
with the Rust cast whenever the result is nonnegative (always the case for
well-formed input ranges, where `start ≤ stop`). -/
def relocateAndCropRange (frm tgt : MRange) : MRange :=
  let fromStart : Int := frm.start
  let fromEnd : Int := frm.stop
  let toStart : Int := tgt.start
  let toEnd : Int := tgt.stop
  -- Calculate the offset between from and to
  let offset : Int := fromStart - toStart
  -- Adjust the start and end of the from range according to the offset
  let relocatedStart : Int := fromStart - offset
  let relocatedEnd : Int := fromEnd - offset
  -- Ensure the relocated range is within the bounds of to
  let start : Int := max relocatedStart toStart
  let stop : Int := min relocatedEnd toEnd
  ⟨start.toNat, stop.toNat⟩

/-- `ReadMemoryRecord` from `src/component/memory.rs`. -/
inductive ReadMemoryRecord
  | denied
  | redirect (offset : Nat)
deriving DecidableEq, Repr

/-- `WriteMemoryRecord` from `src/component/memory.rs`. -/
inductive WriteMemoryRecord
  | denied
  | redirect (offset : Nat)
deriving DecidableEq, Repr

/-- `PreviewMemoryRecord` from `src/component/memory.rs`. -/
inductive PreviewMemoryRecord
  | denied
  | redirect (offset : Nat)
  | previewImpossible
deriving DecidableEq, Repr

/-- `MemoryOperationError` from `src/component/memory.rs`. -/
inductive MemoryOperationError
  | denied (range : MRange)
  | outOfBounds (range : MRange)
deriving DecidableEq, Repr

/-- `PlainMemoryConfig` (`src/component/definitions/misc/plain_memory.rs`).
The `initial_contents` field only matters at construction time and is not
carried here; the constructed byte buffer lives in the `Device` value. -/
structure PlainMemoryConfig where
  readable : Bool
  writable : Bool
  maxWordSize : Nat
  readCyclePenaltyCalculator : MRange → Bool → Nat
  writeCyclePenaltyCalculator : MRange → Bool → Nat
  assignedRange : MRange

/-- `MirrorMemoryOverflowMode` (`mirror_memory.rs`). -/
inductive MirrorMemoryOverflowMode
  | deny
  | wrap (n : Nat)
deriving DecidableEq, Repr

/-- `MirrorMemoryConfig` (`mirror_memory.rs`). -/
structure MirrorMemoryConfig where
  readable : Bool
  writable : Bool
  assignedRange : MRange
  readCyclePenaltyCalculator : MRange → Bool → Nat
  writeCyclePenaltyCalculator : MRange → Bool → Nat
  target : MRange
  overflowMode : MirrorMemoryOverflowMode

/-- The two provided `MemoryComponent` kinds: `PlainMemory` (with its internal
byte buffer) and `MirrorMemory` (stateless, config only). -/
inductive Device
  | plain (config : PlainMemoryConfig) (internal : List Nat)
  | mirror (config : MirrorMemoryConfig)

/-- Rust slice indexing `l[start..stop]`: `none` models the panic on an
out-of-bounds or inverted range. -/
def listSlice (l : List Nat) (start stop : Nat) : Option (List Nat) :=
  if start ≤ stop ∧ stop ≤ l.length then some ((l.drop start).take (stop - start))
  else none

/-- Rust `l[start..start+src.len()].copy_from_slice(src)`: `none` models the
panic when the destination range is out of bounds. -/
def listSetSlice (l : List Nat) (start : Nat) (src : List Nat) : Option (List Nat) :=
  if start + src.length ≤ l.length then
    some (l.take start ++ src ++ l.drop (start + src.length))
  else none

/-- `MemoryComponent::read_memory` for both device kinds.  Returns the device
after the call, the contents of the passed buffer after the call, the emitted
records and the cycle count; `none` models a Rust panic (slice out of bounds,
`usize` subtraction underflow, division by zero). -/
def Device.readMemory :
    Device → Nat → List Nat →
      Option (Device × List Nat × List (MRange × ReadMemoryRecord) × Nat)
  | .plain config internal, address, buffer =>
    let affectedRange : MRange := ⟨address, address + buffer.length⟩
    if config.readable = false then
      some (.plain config internal, buffer, [(affectedRange, .denied)],
        config.readCyclePenaltyCalculator affectedRange true)
    else if config.maxWordSize < buffer.length then
      some (.plain config internal, buffer, [(affectedRange, .denied)],
        config.readCyclePenaltyCalculator affectedRange true)
    else if config.assignedRange.start ≤ address then
      match listSlice internal (address - config.assignedRange.start)
          (address + buffer.length - config.assignedRange.start) with
      | some out =>
        some (.plain config internal, out, [],
          config.readCyclePenaltyCalculator affectedRange false)
      | none => none
    else none
  | .mirror config, address, buffer =>
    let affectedRange : MRange := ⟨address, address + buffer.length⟩
    if config.readable = false then
      some (.mirror config, buffer, [(affectedRange, .denied)],
        config.readCyclePenaltyCalculator affectedRange true)
    else if config.assignedRange.start ≤ address then
      let assignedRangeSize := config.assignedRange.stop - config.assignedRange.start
      let targetRangeSize := config.target.stop - config.target.start
      let offset := (address - config.assignedRange.start) + config.target.start
      if targetRangeSize < assignedRangeSize ∧ config.target.stop ≤ offset then
        match config.overflowMode with
        | .deny =>
          some (.mirror config, buffer, [(affectedRange, .denied)],
            config.readCyclePenaltyCalculator affectedRange true)
        | .wrap n =>
          if targetRangeSize = 0 then none
          else if n ≤ offset / targetRangeSize then
            some (.mirror config, buffer, [(affectedRange, .denied)],
              config.readCyclePenaltyCalculator affectedRange true)
          else
            some (.mirror config, buffer,
              [(affectedRange, .redirect (offset % targetRangeSize))],
              config.readCyclePenaltyCalculator affectedRange false)
      else
        some (.mirror config, buffer, [(affectedRange, .redirect offset)],
          config.readCyclePenaltyCalculator affectedRange false)
    else none

/-- `MemoryComponent::write_memory` for both device kinds. -/
def Device.writeMemory :
    Device → Nat → List Nat →
      Option (Device × List (MRange × WriteMemoryRecord) × Nat)
  | .plain config internal, address, buffer =>
    let affectedRange : MRange := ⟨address, address + buffer.length⟩
    if config.writable = false then
      some (.plain config internal, [(affectedRange, .denied)],
        config.writeCyclePenaltyCalculator affectedRange true)
    else if config.maxWordSize < buffer.length then
      some (.plain config internal, [(affectedRange, .denied)],
        config.writeCyclePenaltyCalculator affectedRange true)
    else if config.assignedRange.start ≤ address then
      match listSetSlice internal (address - config.assignedRange.start) buffer with
      | some internal2 =>
        some (.plain config internal2, [],
          config.writeCyclePenaltyCalculator affectedRange false)
      | none => none
    else none
  | .mirror config, address, buffer =>
    let affectedRange : MRange := ⟨address, address + buffer.length⟩
    if config.writable = false then
      some (.mirror config, [(affectedRange, .denied)],
        config.writeCyclePenaltyCalculator affectedRange true)
    else if config.assignedRange.start ≤ address then
      let assignedRangeSize := config.assignedRange.stop - config.assignedRange.start
      let targetRangeSize := config.target.stop - config.target.start
      let offset := (address - config.assignedRange.start) + config.target.start
      if targetRangeSize < assignedRangeSize ∧ config.target.stop ≤ offset then
        match config.overflowMode with
        | .deny =>
          some (.mirror config, [(affectedRange, .denied)],
            config.writeCyclePenaltyCalculator affectedRange true)
        | .wrap n =>
          if targetRangeSize = 0 then none
          else if n ≤ offset / targetRangeSize then
            some (.mirror config, [(affectedRange, .denied)],
              config.writeCyclePenaltyCalculator affectedRange true)
          else
            some (.mirror config,
              [(affectedRange, .redirect (offset % targetRangeSize))],
              config.writeCyclePenaltyCalculator affectedRange false)
      else
        some (.mirror config, [(affectedRange, .redirect offset)],
          config.writeCyclePenaltyCalculator affectedRange false)
    else none

/-- `MemoryComponent::preview_memory` for both device kinds.  Note that in the
mirror overflow branch the source pushes its record(s) and then *falls
through* to push the final `Redirect { offset }` as well (no early returns in
`preview_memory`, unlike `read_memory`/`write_memory`). -/
def Device.previewMemory :
    Device → Nat → List Nat →
      Option (Device × List Nat × List (MRange × PreviewMemoryRecord))
  | .plain config internal, address, buffer =>
    let affectedRange : MRange := ⟨address, address + buffer.length⟩
    if config.readable = false then
      some (.plain config internal, buffer, [(affectedRange, .denied)])
    else if config.assignedRange.start ≤ address then
      match listSlice internal (address - config.assignedRange.start)
          (address + buffer.length - config.assignedRange.start) with
      | some out => some (.plain config internal, out, [])
      | none => none
    else none
  | .mirror config, address, buffer =>
    let affectedRange : MRange := ⟨address, address + buffer.length⟩
    if config.readable = false then
      some (.mirror config, buffer, [(affectedRange, .denied)])
    else if config.assignedRange.start ≤ address then
      let assignedRangeSize := config.assignedRange.stop - config.assignedRange.start
      let targetRangeSize := config.target.stop - config.target.start
      let offset := (address - config.assignedRange.start) + config.target.start
      let overflowRecords : Option (List (MRange × PreviewMemoryRecord)) :=
        if targetRangeSize < assignedRangeSize ∧ config.target.stop ≤ offset then
          match config.overflowMode with
          | .deny => some [(affectedRange, .denied)]
          | .wrap n =>
            if targetRangeSize = 0 then none
            else if n ≤ offset / targetRangeSize then
              some [(affectedRange, .denied),
                (affectedRange, .redirect (offset % targetRangeSize))]
            else
              some [(affectedRange, .redirect (offset % targetRangeSize))]
        else some []
      match overflowRecords with
      | none => none
      | some recs =>
        some (.mirror config, buffer, recs ++ [(affectedRange, .redirect offset)])
    else none

/-- The address bus: ordered `(range, device)` entries; devices are shared
(`Arc<Mutex<_>>`), modelled as indices into a separate device store. -/
structure MemoryTranslationTable where
  entries : List (MRange × Nat)

/-- The device store backing the `Arc` handles of one machine. -/
abbrev DeviceStore := List Device

/-- `MemoryTranslationTable::overlaps`: all entries intersecting `target`,
cropped to the overlapping portion. -/
def MemoryTranslationTable.overlapEntries (mtt : MemoryTranslationTable)
    (target : MRange) : List (MRange × Nat) :=
  mtt.entries.filterMap (fun entry =>
    let range := entry.1
    -- Check if there is an overlap
    if range.start < target.stop ∧ target.start < range.stop then
      -- Crop range to the overlapping portion
      let overlapStart := max range.start target.start
      let overlapStop := min range.stop target.stop
      -- Only return non-zero-length ranges
      if overlapStart < overlapStop then some (⟨overlapStart, overlapStop⟩, entry.2)
      else none
    else none)

/-!
The resolution loops.  The Rust `to_inspect` work stack is an
`ArrayVec<_, 8>` for `read`/`write` (pushing beyond 8 entries panics, `none`
here) and a `Vec` for `preview`.  `ArrayVec::pop` removes the LAST element,
and `extend` appends at the end, so the stack is a plain Lean list with
`getLast?`/`dropLast`/`++`.  The loops are given fuel: `none` on exhaustion
models a still-running (potentially infinite) Rust loop.
-/

/-- The `for (context_range, error) in records` body of
`MemoryTranslationTable::read`: `Denied` aborts the whole call, `Redirect`
re-resolves and extends the work stack (panicking — `none` — past capacity 8). -/
def MemoryTranslationTable.extendReadInspect (mtt : MemoryTranslationTable)
    (bufferLen : Nat) :
    List (MRange × Nat) → List (MRange × ReadMemoryRecord) →
      Option (Except MemoryOperationError (List (MRange × Nat)))
  | toInspect, [] => some (.ok toInspect)
  | toInspect, (contextRange, record) :: rest =>
    match record with
    | .denied => some (.error (.denied contextRange))
    | .redirect offset =>
      let cropped := relocateAndCropRange contextRange ⟨0, bufferLen⟩
      let contextRange2 : MRange := ⟨cropped.start + offset, cropped.stop + offset⟩
      let toInspect2 := toInspect ++ mtt.overlapEntries contextRange2
      if 8 < toInspect2.length then none
      else mtt.extendReadInspect bufferLen toInspect2 rest

/-- The `while let Some(..) = to_inspect.pop()` loop of
`MemoryTranslationTable::read`, with the device store threaded through. -/
def MemoryTranslationTable.readLoop (mtt : MemoryTranslationTable) :
    Nat → DeviceStore → List Nat → Nat → List (MRange × Nat) →
      Option (DeviceStore × List Nat × Except MemoryOperationError Nat)
  | 0, _, _, _, _ => none
  | fuel + 1, store, buffer, cycles, toInspect =>
    match toInspect.getLast? with
    | none => some (store, buffer, .ok cycles)
    | some (entryRange, index) =>
      let rest := toInspect.dropLast
      let bufferSubsection := relocateAndCropRange entryRange ⟨0, buffer.length⟩
      match store.get? index with
      | none => none
      | some device =>
        match listSlice buffer bufferSubsection.start bufferSubsection.stop with
        | none => none
        | some sub =>
          match device.readMemory entryRange.start sub with
          | none => none
          | some (device2, subOut, records, cyclesTaken) =>
            match listSetSlice buffer bufferSubsection.start subOut with
            | none => none
            | some buffer2 =>
              let store2 := store.set index device2
              match mtt.extendReadInspect buffer.length rest records with
              | none => none
              | some (.error e) => some (store2, buffer2, .error e)
              | some (.ok toInspect2) =>
                mtt.readLoop fuel store2 buffer2 (cycles + cyclesTaken) toInspect2

/-- `MemoryTranslationTable::read` (memory.rs lines 140-183).  Returns the
device store and caller buffer after the call together with the result
(`Ok(cycles)` or a `MemoryOperationError`). -/
def MemoryTranslationTable.read (mtt : MemoryTranslationTable) (fuel : Nat)
    (store : DeviceStore) (offset : Nat) (buffer : List Nat) :
    Option (DeviceStore × List Nat × Except MemoryOperationError Nat) :=
  -- Calculate the actual range that the buffer will be reading from
  let bufferTargetRange : MRange := ⟨offset, offset + buffer.length⟩
  let toInspect := mtt.overlapEntries bufferTargetRange
  if 8 < toInspect.length then none
  else if toInspect.isEmpty then
    some (store, buffer, .error (.outOfBounds bufferTargetRange))
  else mtt.readLoop fuel store buffer 0 toInspect

/-- Record processing of `MemoryTranslationTable::write` (same shape as the
read version, over `WriteMemoryRecord`). -/
def MemoryTranslationTable.extendWriteInspect (mtt : MemoryTranslationTable)
    (bufferLen : Nat) :
    List (MRange × Nat) → List (MRange × WriteMemoryRecord) →
      Option (Except MemoryOperationError (List (MRange × Nat)))
  | toInspect, [] => some (.ok toInspect)
  | toInspect, (contextRange, record) :: rest =>
    match record with
    | .denied => some (.error (.denied contextRange))
    | .redirect offset =>
      let cropped := relocateAndCropRange contextRange ⟨0, bufferLen⟩
      let contextRange2 : MRange := ⟨cropped.start + offset, cropped.stop + offset⟩
      let toInspect2 := toInspect ++ mtt.overlapEntries contextRange2
      if 8 < toInspect2.length then none
      else mtt.extendWriteInspect bufferLen toInspect2 rest

/-- The pop loop of `MemoryTranslationTable::write`. -/
def MemoryTranslationTable.writeLoop (mtt : MemoryTranslationTable) :
    Nat → DeviceStore → List Nat → Nat → List (MRange × Nat) →
      Option (DeviceStore × Except MemoryOperationError Nat)
  | 0, _, _, _, _ => none
  | fuel + 1, store, buffer, cycles, toInspect =>
    match toInspect.getLast? with
    | none => some (store, .ok cycles)
    | some (entryRange, index) =>
      let rest := toInspect.dropLast
      let bufferSubsection := relocateAndCropRange entryRange ⟨0, buffer.length⟩
      match store.get? index with
      | none => none
      | some device =>
        match listSlice buffer bufferSubsection.start bufferSubsection.stop with
        | none => none
        | some sub =>
          match device.writeMemory entryRange.start sub with
          | none => none
          | some (device2, records, cyclesTaken) =>
            let store2 := store.set index device2
            match mtt.extendWriteInspect buffer.length rest records with
            | none => none
            | some (.error e) => some (store2, .error e)
            | some (.ok toInspect2) =>
              mtt.writeLoop fuel store2 buffer (cycles + cyclesTaken) toInspect2

/-- `MemoryTranslationTable::write` (memory.rs lines 186-228). -/
def MemoryTranslationTable.write (mtt : MemoryTranslationTable) (fuel : Nat)
    (store : DeviceStore) (offset : Nat) (buffer : List Nat) :
    Option (DeviceStore × Except MemoryOperationError Nat) :=
  let bufferTargetRange : MRange := ⟨offset, offset + buffer.length⟩
  let toInspect := mtt.overlapEntries bufferTargetRange
  if 8 < toInspect.length then none
  else if toInspect.isEmpty then
    some (store, .error (.outOfBounds bufferTargetRange))
  else mtt.writeLoop fuel store buffer 0 toInspect

/-- Record processing of `MemoryTranslationTable::preview`: the work stack is
an unbounded `Vec`, and `PreviewImpossible` hits a `todo!()` panic (`none`). -/
def MemoryTranslationTable.extendPreviewInspect (mtt : MemoryTranslationTable)
    (bufferLen : Nat) :
    List (MRange × Nat) → List (MRange × PreviewMemoryRecord) →
      Option (Except MemoryOperationError (List (MRange × Nat)))
  | toInspect, [] => some (.ok toInspect)
  | toInspect, (contextRange, record) :: rest =>
    match record with
    | .denied => some (.error (.denied contextRange))
    | .redirect offset =>
      let cropped := relocateAndCropRange contextRange ⟨0, bufferLen⟩
      let contextRange2 : MRange := ⟨cropped.start + offset, cropped.stop + offset⟩
      mtt.extendPreviewInspect bufferLen
        (toInspect ++ mtt.overlapEntries contextRange2) rest
    | .previewImpossible => none

/-- The pop loop of `MemoryTranslationTable::preview`. -/
def MemoryTranslationTable.previewLoop (mtt : MemoryTranslationTable) :
    Nat → DeviceStore → List Nat → List (MRange × Nat) →
      Option (DeviceStore × List Nat × Except MemoryOperationError Unit)
  | 0, _, _, _ => none
  | fuel + 1, store, buffer, toInspect =>
    match toInspect.getLast? with
    | none => some (store, buffer, .ok ())
    | some (entryRange, index) =>
      let rest := toInspect.dropLast
      let bufferSubsection := relocateAndCropRange entryRange ⟨0, buffer.length⟩
      match store.get? index with
      | none => none
      | some device =>
        match listSlice buffer bufferSubsection.start bufferSubsection.stop with
        | none => none
        | some sub =>
          match device.previewMemory entryRange.start sub with
          | none => none
          | some (device2, subOut, records) =>
            match listSetSlice buffer bufferSubsection.start subOut with
            | none => none
            | some buffer2 =>
              let store2 := store.set index device2
              match mtt.extendPreviewInspect buffer.length rest records with
              | none => none
              | some (.error e) => some (store2, buffer2, .error e)
              | some (.ok toInspect2) =>
                mtt.previewLoop fuel store2 buffer2 toInspect2

/-- `MemoryTranslationTable::preview` (memory.rs lines 230-273). -/
def MemoryTranslationTable.preview (mtt : MemoryTranslationTable) (fuel : Nat)
    (store : DeviceStore) (offset : Nat) (buffer : List Nat) :
    Option (DeviceStore × List Nat × Except MemoryOperationError Unit) :=
  let bufferTargetRange : MRange := ⟨offset, offset + buffer.length⟩
  let toInspect := mtt.overlapEntries bufferTargetRange
  if toInspect.isEmpty then
    some (store, buffer, .error (.outOfBounds bufferTargetRange))
  else mtt.previewLoop fuel store buffer toInspect

/-!
Scheduler timing (`src/machine/executor/single.rs`).  A `Ratio<u32>` tick
rate is embedded as a `(numerator, denominator)` pair of naturals; `num`'s
`Ratio` keeps values reduced, but every quantity below is invariant under
scaling by the represented rational, so reduction is immaterial.
-/

/-- `find_component_timings` (single.rs lines 132-159): common denominator by
LCM, numerators rescaled to it, rollover tick = LCM of the rescaled
numerators, per-task local tick rates, and the real-time duration of one
global tick as an exact rational.  `none` models the panics of the source:
`reduce(lcm).unwrap()` on an empty task list, `Ratio::new` with a zero
denominator, and `Ratio::recip` of zero. -/
def findComponentTimings (ratios : List (Nat × Nat)) :
    Option (Nat × List Nat × Rat) :=
  -- Get the least common multiple of all denominators
  let commonDenominator := ratios.foldl (fun acc r => Nat.lcm acc r.2) 1
  -- Adjust numerators to the common denominator
  let adjustedNumerators := ratios.map (fun r => r.1 * (commonDenominator / r.2))
  -- Get the least common multiple of the adjusted numerators
  match adjustedNumerators with
  | [] => none
  | n :: rest =>
    let commonMultiple := rest.foldl Nat.lcm n
    if commonDenominator = 0 ∨ commonMultiple = 0 then none
    else
      some (commonMultiple,
        adjustedNumerators.map (fun numerator => commonMultiple / numerator),
        ((commonMultiple : Rat) / (commonDenominator : Rat))⁻¹)

/-- The scheduler state of `SingleThreadedExecutor` (single.rs lines 11-18).
The task list and the memory translation table handle are not represented:
`increment_tick` and the construction facts under verification touch only the
tick bookkeeping.  `Instant` timestamps are abstract instants (`Nat`). -/
structure SingleThreadedExecutor where
  timestamp : Nat
  currentTick : Nat
  rolloverTick : Nat
  tickRealTime : Rat

/-- `SingleThreadedExecutor::increment_tick` (single.rs lines 21-29); `now`
is the value of `Instant::now()` at the call. -/
def SingleThreadedExecutor.incrementTick (s : SingleThreadedExecutor)
    (amount : Nat) (now : Nat) : SingleThreadedExecutor :=
  let newTick := (s.currentTick + amount) % s.rolloverTick
  { s with
    timestamp := if newTick < s.currentTick then now else s.timestamp
    currentTick := newTick }

/-- `<SingleThreadedExecutor as Executor>::new` (single.rs lines 33-57),
restricted to its tick bookkeeping; `now` is `Instant::now()`. -/
def SingleThreadedExecutor.new (ratios : List (Nat × Nat)) (now : Nat) :
    Option SingleThreadedExecutor :=
  (findComponentTimings ratios).map (fun timings =>
    { timestamp := now
      currentTick := 0
      rolloverTick := timings.1
      tickRealTime := timings.2.2 })

/-!
CHIP-8 (`src/component/definitions/chip8/`).  Register values are `u8`
naturals; `Register` is the 16-variant operand enum, embedded as `Fin 16`.
-/

/-- The CHIP-8 register operand enum `Register` (V0..VF), as its index. -/
abbrev Register := Fin 16

/-- `Register::try_from(u8)` (instruction.rs). -/
def registerTryFromNat (value : Nat) : Option Register :=
  if h : value < 16 then some ⟨value, h⟩ else none

/-- `Chip8Key` (processor/input.rs): a raw `u8` key code. -/
abbrev Chip8Key := Nat

/-- Modelled from the spec: the `Chip8Kind` ISA-variant enum lives in
`src/component/definitions/chip8/mod.rs`, which is absent from the sources;
its variants are reconstructed from its uses (`Chip8`, `Chip48`, `SuperChip8`
in display/mod.rs; the instruction set also carries an XO-Chip extension).
`chip8` is the strict (original, non-extended) variant the spec describes. -/
inductive Chip8Kind
  | chip8
  | chip48
  | superChip8
  | xoChip
deriving DecidableEq, Repr

/-- The keyboard inputs the CHIP-8 core distinguishes (input/keyboard.rs has
many more keys; every key other than the 16 mapped ones behaves like
`otherKey` as far as this component is concerned). -/
inductive KeyboardInput
  | numpad0 | numpad1 | numpad2 | numpad3 | numpad4
  | numpad5 | numpad6 | numpad7 | numpad8 | numpad9
  | keyA | keyB | keyC | keyD | keyE | keyF
  | otherKey (code : Nat)
deriving DecidableEq, Repr

/-- `Input` (src/input/mod.rs): gamepad or keyboard. -/
inductive Input
  | gamepad (code : Nat)
  | keyboard (key : KeyboardInput)
deriving DecidableEq, Repr

/-- `Chip8Key::try_from(Input)` (processor/input.rs lines 6-30). -/
def chip8KeyTryFromInput : Input → Option Chip8Key
  | .keyboard .numpad0 => some 0x0
  | .keyboard .numpad1 => some 0x1
  | .keyboard .numpad2 => some 0x2
  | .keyboard .numpad3 => some 0x3
  | .keyboard .numpad4 => some 0x4
  | .keyboard .numpad5 => some 0x5
  | .keyboard .numpad6 => some 0x6
  | .keyboard .numpad7 => some 0x7
  | .keyboard .numpad8 => some 0x8
  | .keyboard .numpad9 => some 0x9
  | .keyboard .keyA => some 0xa
  | .keyboard .keyB => some 0xb
  | .keyboard .keyC => some 0xc
  | .keyboard .keyD => some 0xd
  | .keyboard .keyE => some 0xe
  | .keyboard .keyF => some 0xf
  | _ => none

/-- `Input::try_from(Chip8Key)` (processor/input.rs lines 32-56). -/
def inputTryFromChip8Key (key : Chip8Key) : Option Input :=
  match key with
  | 0x0 => some (.keyboard .numpad0)
  | 0x1 => some (.keyboard .numpad1)
  | 0x2 => some (.keyboard .numpad2)
  | 0x3 => some (.keyboard .numpad3)
  | 0x4 => some (.keyboard .numpad4)
  | 0x5 => some (.keyboard .numpad5)
  | 0x6 => some (.keyboard .numpad6)
  | 0x7 => some (.keyboard .numpad7)
  | 0x8 => some (.keyboard .numpad8)
  | 0x9 => some (.keyboard .numpad9)
  | 0xa => some (.keyboard .keyA)
  | 0xb => some (.keyboard .keyB)
  | 0xc => some (.keyboard .keyC)
  | 0xd => some (.keyboard .keyD)
  | 0xe => some (.keyboard .keyE)
  | 0xf => some (.keyboard .keyF)
  | _ => none

/-- `EmulatedGamepad` (src/input/mod.rs): a map from inputs to input states.
`InputState` is reduced to its `as_digital()` value, which is all the CHIP-8
processor ever reads from it; the entry list order stands in for the
`HashMap`'s (arbitrary but fixed) iteration order. -/
structure EmulatedGamepad where
  entries : List (Input × Bool)
deriving DecidableEq, Repr

/-- `EmulatedGamepad::get_input_state` followed by `as_digital`. -/
def EmulatedGamepad.getInputState (g : EmulatedGamepad) (input : Input) :
    Option Bool :=
  (g.entries.find? (fun e => decide (e.1 = input))).map Prod.snd

/-- `EmulatedGamepad::iter_pressed`: the inputs whose state is digitally on. -/
def EmulatedGamepad.iterPressed (g : EmulatedGamepad) : List Input :=
  g.entries.filterMap (fun e => if e.2 then some e.1 else none)

/-- `ExecutionState` (processor/mod.rs lines 28-34). -/
inductive ExecutionState
  | normal
  | awaitingKeyPress (register : Register)
  | awaitingKeyRelease (register : Register) (key : Chip8Key)
deriving DecidableEq, Repr

/-- The CPU-state part of `Chip8Processor` (processor/mod.rs lines 57-64):
the ISA kind from the config, the call stack (`ArrayVec<u16, 16>`, top at the
END of the list), the 16 work registers, the index register, and the
execution-state tag.  The imported display/timer/audio handles are not
represented; the facts proved below concern only instruction arms and ticks
that never touch them. -/
structure Chip8Processor where
  kind : Chip8Kind
  stack : List Nat
  workRegisters : List Nat
  index : Nat
  executionState : ExecutionState
deriving DecidableEq, Repr

/-- `<Chip8Processor as SchedulableComponent>::tick` (processor/mod.rs lines
114-149): the key-wait poll.  `none` models the `unwrap` panics (a key value
outside 0..=15, or a key not registered in the gamepad). -/
def Chip8Processor.tick (s : Chip8Processor) (controller : EmulatedGamepad) :
    Option Chip8Processor :=
  match s.executionState with
  | .awaitingKeyPress register =>
    match controller.iterPressed.findSome? chip8KeyTryFromInput with
    | some key => some { s with executionState := .awaitingKeyRelease register key }
    | none => some s
  | .awaitingKeyRelease register key =>
    match inputTryFromChip8Key key with
    | none => none
    | some input =>
      match controller.getInputState input with
      | none => none
      | some pressed =>
        if pressed then some s
        else
          some { s with
            workRegisters := s.workRegisters.set register.val key
            executionState := .normal }
  | .normal => some s

/-- `<Chip8Processor as ProcessorComponent>::should_execution_occur`
(processor/mod.rs lines 156-158). -/
def Chip8Processor.shouldExecutionOccur (s : Chip8Processor) : Bool :=
  s.executionState = ExecutionState.normal

/-- One iteration of the `ProcessorTask::tick` loop (src/task/processor.rs
lines 28-57): tick the component, and if execution should occur run the
fetch/decode/execute phase.  That phase (`decompile` + cursor advance +
`interpret` against the bus) is abstracted as the `execute` argument: the
key-wait claims constrain it only through the gate. -/
def processorTaskStep (controller : EmulatedGamepad)
    (execute : Chip8Processor → Nat → Option (Chip8Processor × Nat))
    (s : Chip8Processor) (programPointer : Nat) :
    Option (Chip8Processor × Nat) :=
  match s.tick controller with
  | none => none
  | some s1 =>
    if s1.shouldExecutionOccur then execute s1 programPointer
    else some (s1, programPointer)

/-- `InstructionSetChip8` (processor/instruction.rs): the base CHIP-8
instruction set.  Immediates are `u8`, addresses/values `u16`, both as `Nat`;
`draw`'s `Point2<Register>` coordinate pair is an ordered pair `(x, y)`. -/
inductive InstructionSetChip8
  | sys (syscall : Nat)
  | jump (address : Nat)
  | call (address : Nat)
  | ske (register : Register) (immediate : Nat)
  | skne (register : Register) (immediate : Nat)
  | skre (paramRegister1 : Register) (paramRegister2 : Register)
  | load (register : Register) (immediate : Nat)
  | add (register : Register) (immediate : Nat)
  | move (paramRegister1 : Register) (paramRegister2 : Register)
  | or (destination : Register) (source : Register)
  | and (destination : Register) (source : Register)
  | xor (destination : Register) (source : Register)
  | addr (destination : Register) (source : Register)
  | sub (destination : Register) (source : Register)
  | shr (register : Register) (value : Register)
  | subn (destination : Register) (source : Register)
  | shl (register : Register) (value : Register)
  | skrne (paramRegister1 : Register) (paramRegister2 : Register)
  | loadi (value : Nat)
  | jumpi (address : Nat)
  | rand (register : Register) (immediate : Nat)
  | draw (coordinateRegisters : Register × Register) (height : Nat)
  | skpr (key : Register)
  | skup (key : Register)
  | moved (register : Register)
  | keyd (key : Register)
  | loadd (register : Register)
  | loads (register : Register)
  | addi (register : Register)
  | font (register : Register)
  | bcd (register : Register)
  | save (count : Nat)
  | restore (count : Nat)
deriving DecidableEq, Repr

/-- Outcome of `decode_instruction` (processor/decode.rs).  The Rust function
returns `Result<Chip8InstructionSet, Box<dyn Error>>` but constructs no `Err`
value on any path, so the embedding has no error constructor; the three panic
outcomes distinguish the `unimplemented!()` arms, the `unreachable!()`
default arm, and `Register::try_from(..).unwrap()` failing.  (`ok` payloads
are always wrapped `Chip8InstructionSet::Chip8(..)` in the source.) -/
inductive DecodeOutcome
  | ok (instruction : InstructionSetChip8)
  | unimplementedPanic
  | unreachablePanic
  | unwrapPanic
deriving DecidableEq, Repr

/-- `Register::try_from(n).unwrap()` as used throughout `decode_instruction`. -/
def withRegister (value : Nat) (k : Register → DecodeOutcome) : DecodeOutcome :=
  match registerTryFromNat value with
  | some r => k r
  | none => .unwrapPanic

/-- `decode_instruction` (processor/decode.rs lines 5-230) over the two raw
instruction bytes.  Big-endian bit fields of `[b0, b1]` viewed `Msb0`:
bits `[0..4] = b0 / 16`, `[4..8] = b0 % 16`, `[4..16] = (b0 % 16) * 256 + b1`,
`[8..12] = b1 / 16`, `[8..16] = b1`, `[12..16] = b1 % 16`.  The Rust `match`
arms on nibble/byte literals are rendered as equality chains. -/
def decodeInstruction (b0 b1 : Nat) : DecodeOutcome :=
  if b0 / 16 = 0x0 then .ok (.sys ((b0 % 16) * 256 + b1))
  else if b0 / 16 = 0x1 then .ok (.jump ((b0 % 16) * 256 + b1))
  else if b0 / 16 = 0x2 then .ok (.call ((b0 % 16) * 256 + b1))
  else if b0 / 16 = 0x3 then withRegister (b0 % 16) (fun r => .ok (.ske r b1))
  else if b0 / 16 = 0x4 then withRegister (b0 % 16) (fun r => .ok (.skne r b1))
  else if b0 / 16 = 0x5 then
    withRegister (b0 % 16) (fun r1 =>
      withRegister (b1 / 16) (fun r2 => .ok (.skre r1 r2)))
  else if b0 / 16 = 0x6 then withRegister (b0 % 16) (fun r => .ok (.load r b1))
  else if b0 / 16 = 0x7 then withRegister (b0 % 16) (fun r => .ok (.add r b1))
  else if b0 / 16 = 0x8 then
    if b1 % 16 = 0x0 then
      withRegister (b0 % 16) (fun r1 =>
        withRegister (b1 / 16) (fun r2 => .ok (.move r1 r2)))
    else if b1 % 16 = 0x1 then
      withRegister (b0 % 16) (fun r1 =>
        withRegister (b1 / 16) (fun r2 => .ok (.or r1 r2)))
    else if b1 % 16 = 0x2 then
      withRegister (b0 % 16) (fun r1 =>
        withRegister (b1 / 16) (fun r2 => .ok (.and r1 r2)))
    else if b1 % 16 = 0x3 then
      withRegister (b0 % 16) (fun r1 =>
        withRegister (b1 / 16) (fun r2 => .ok (.xor r1 r2)))
    else if b1 % 16 = 0x4 then
      withRegister (b0 % 16) (fun r1 =>
        withRegister (b1 / 16) (fun r2 => .ok (.addr r1 r2)))
    else if b1 % 16 = 0x5 then
      withRegister (b0 % 16) (fun r1 =>
        withRegister (b1 / 16) (fun r2 => .ok (.sub r1 r2)))
    else if b1 % 16 = 0x6 then
      withRegister (b0 % 16) (fun r1 =>
        withRegister (b1 / 16) (fun r2 => .ok (.shr r1 r2)))
    else if b1 % 16 = 0x7 then
      withRegister (b0 % 16) (fun r1 =>
        withRegister (b1 / 16) (fun r2 => .ok (.subn r1 r2)))
    else if b1 % 16 = 0xe then
      withRegister (b0 % 16) (fun r1 =>
        withRegister (b1 / 16) (fun r2 => .ok (.shl r1 r2)))
    else .unimplementedPanic
  else if b0 / 16 = 0x9 then
    if b1 % 16 = 0x0 then
      withRegister (b0 % 16) (fun r1 =>
        withRegister (b1 / 16) (fun r2 => .ok (.skrne r1 r2)))
    else .unimplementedPanic
  else if b0 / 16 = 0xa then .ok (.loadi ((b0 % 16) * 256 + b1))
  else if b0 / 16 = 0xb then .ok (.jumpi ((b0 % 16) * 256 + b1))
  else if b0 / 16 = 0xc then withRegister (b0 % 16) (fun r => .ok (.rand r b1))
  else if b0 / 16 = 0xd then
    withRegister (b0 % 16) (fun rx =>
      withRegister (b1 / 16) (fun ry => .ok (.draw (rx, ry) (b1 % 16))))
  else if b0 / 16 = 0xe then
    if b1 = 0x9e then withRegister (b0 % 16) (fun r => .ok (.skpr r))
    else if b1 = 0xa1 then withRegister (b0 % 16) (fun r => .ok (.skup r))
    else .unimplementedPanic
  else if b0 / 16 = 0xf then
    if b1 = 0x07 then withRegister (b0 % 16) (fun r => .ok (.moved r))
    else if b1 = 0x0a then withRegister (b0 % 16) (fun r => .ok (.keyd r))
    else if b1 = 0x15 then withRegister (b0 % 16) (fun r => .ok (.loadd r))
    else if b1 = 0x18 then withRegister (b0 % 16) (fun r => .ok (.loads r))
    else if b1 = 0x1e then withRegister (b0 % 16) (fun r => .ok (.addi r))
    else if b1 = 0x29 then withRegister (b0 % 16) (fun r => .ok (.font r))
    else if b1 = 0x33 then withRegister (b0 % 16) (fun r => .ok (.bcd r))
    else if b1 = 0x55 then .ok (.save (b0 % 16))
    else if b1 = 0x65 then .ok (.restore (b0 % 16))
    else .unimplementedPanic
  else .unreachablePanic

/-- Whether a decode outcome is a successfully decoded instruction. -/
def DecodeOutcome.isOk : DecodeOutcome → Bool
  | .ok _ => true
  | _ => false

/-- The trailing-nibble combinations `decode_instruction` leaves
`unimplemented!()`: the non-arithmetic specifiers of group `0x8`, non-zero
specifiers of group `0x9`, and the unknown low bytes of groups `0xe`/`0xf`. -/
def decodeUnimplementedCombination (b0 b1 : Nat) : Bool :=
  (b0 / 16 = 0x8 &&
    !(b1 % 16 = 0x0 || b1 % 16 = 0x1 || b1 % 16 = 0x2 || b1 % 16 = 0x3 ||
      b1 % 16 = 0x4 || b1 % 16 = 0x5 || b1 % 16 = 0x6 || b1 % 16 = 0x7 ||
      b1 % 16 = 0xe)) ||
  (b0 / 16 = 0x9 && !(b1 % 16 = 0x0)) ||
  (b0 / 16 = 0xe && !(b1 = 0x9e || b1 = 0xa1)) ||
  (b0 / 16 = 0xf &&
    !(b1 = 0x07 || b1 = 0x0a || b1 = 0x15 || b1 = 0x18 || b1 = 0x1e ||
      b1 = 0x29 || b1 = 0x33 || b1 = 0x55 || b1 = 0x65))

/-!
Interpretation.  `interpret_instruction` (processor/interpret.rs) is one
match over the whole instruction set; the arms under verification — `Sys`
(syscalls), the bitwise `Or`/`And`/`Xor` arms and the `Keyd` key-wait arm —
touch only the CPU state and the program pointer, and are embedded
one arm per definition below, faithful to the corresponding match arm.
-/

/-- The `InstructionSetChip8::Sys` arm (interpret.rs lines 34-49), given the
current program pointer; returns the new processor state and program pointer.
Syscall `0x0e0` calls `display.clear_display()`, which touches only the
display collaborator: CPU state and cursor are unchanged.  Syscall `0x0ee`
(return) pops the call stack into the cursor; on an empty stack it logs
(`tracing::error!`) and resets the cursor to `0x200`.  Unknown syscalls only
log a warning.  (`ArrayVec::pop` removes the LAST element.) -/
def Chip8Processor.interpretSys (s : Chip8Processor) (programPointer : Nat)
    (syscall : Nat) : Chip8Processor × Nat :=
  if syscall = 0x0e0 then (s, programPointer)
  else if syscall = 0x0ee then
    match s.stack.getLast? with
    | some address => ({ s with stack := s.stack.dropLast }, address)
    | none => (s, 0x200)
  else (s, programPointer)

/-- The `InstructionSetChip8::Or` arm (interpret.rs lines 112-122):
`work_registers[destination] |= work_registers[source]`, then VF is zeroed
exactly under `Chip8Kind::Chip8`. -/
def Chip8Processor.interpretOr (s : Chip8Processor)
    (destination source : Register) : Chip8Processor :=
  let value := (s.workRegisters.getD destination.val 0) |||
    (s.workRegisters.getD source.val 0)
  let regs1 := s.workRegisters.set destination.val value
  let regs2 := if s.kind = Chip8Kind.chip8 then regs1.set 0xf 0 else regs1
  { s with workRegisters := regs2 }

/-- The `InstructionSetChip8::And` arm (interpret.rs lines 123-133). -/
def Chip8Processor.interpretAnd (s : Chip8Processor)
    (destination source : Register) : Chip8Processor :=
  let value := (s.workRegisters.getD destination.val 0) &&&
    (s.workRegisters.getD source.val 0)
  let regs1 := s.workRegisters.set destination.val value
  let regs2 := if s.kind = Chip8Kind.chip8 then regs1.set 0xf 0 else regs1
  { s with workRegisters := regs2 }

/-- The `InstructionSetChip8::Xor` arm (interpret.rs lines 134-144). -/
def Chip8Processor.interpretXor (s : Chip8Processor)
    (destination source : Register) : Chip8Processor :=
  let value := (s.workRegisters.getD destination.val 0) ^^^
    (s.workRegisters.getD source.val 0)
  let regs1 := s.workRegisters.set destination.val value
  let regs2 := if s.kind = Chip8Kind.chip8 then regs1.set 0xf 0 else regs1
  { s with workRegisters := regs2 }

/-- The `InstructionSetChip8::Keyd` arm (interpret.rs lines 308-310): enter
the key-wait state; neither the registers nor the cursor change. -/
def Chip8Processor.interpretKeyd (s : Chip8Processor) (register : Register) :
    Chip8Processor :=
  { s with executionState := .awaitingKeyPress register }

/-!
Concrete fixtures used by the counterexamples and witnesses below.
-/

/-- A cycle-penalty calculator charging nothing (the default config of
`PlainMemoryConfig` uses exactly this shape). -/
def zeroPenalty : MRange → Bool → Nat := fun _ _ => 0

/-- A readable/writable 4-byte plain memory mapped at `[0, 4)`. -/
def plainConfigA : PlainMemoryConfig :=
  ⟨true, true, 8, zeroPenalty, zeroPenalty, ⟨0, 4⟩⟩

/-- The device of `plainConfigA` holding bytes `[1, 2, 3, 4]`. -/
def deviceA : Device := .plain plainConfigA [1, 2, 3, 4]

/-- A bus with `deviceA` as its only entry. -/
def mttA : MemoryTranslationTable := ⟨[(⟨0, 4⟩, 0)]⟩

/-- The device store backing `mttA`. -/
def storeA : DeviceStore := [deviceA]

/-- A readable/writable 6-byte plain memory mapped at `[2, 8)`. -/
def plainConfigB : PlainMemoryConfig :=
  ⟨true, true, 8, zeroPenalty, zeroPenalty, ⟨2, 8⟩⟩

/-- The device of `plainConfigB` holding bytes `[10, 11, 12, 13, 14, 15]`. -/
def deviceB : Device := .plain plainConfigB [10, 11, 12, 13, 14, 15]

/-- A bus with `deviceB` as its only entry. -/
def mttB : MemoryTranslationTable := ⟨[(⟨2, 8⟩, 0)]⟩

/-- The device store backing `mttB`. -/
def storeB : DeviceStore := [deviceB]

/-- A mirror device whose target `[100, 110)` has logical size `N = 10`,
assigned to `[0, 30)` (so `k = 3`), wrap count `w = 3`. -/
def mirrorConfigC : MirrorMemoryConfig :=
  ⟨true, true, ⟨0, 30⟩, zeroPenalty, zeroPenalty, ⟨100, 110⟩, .wrap 3⟩

/-- A mirror with target `[0, 10)` mapped at `[64, 94)` (`k = 3`), `Wrap(2)`. -/
def mirrorConfigD : MirrorMemoryConfig :=
  ⟨true, true, ⟨64, 94⟩, zeroPenalty, zeroPenalty, ⟨0, 10⟩, .wrap 2⟩

/-- A gamepad on which the only active input is an (unmapped) gamepad
button; no CHIP-8 key is pressed. -/
def gamepadNoKey : EmulatedGamepad :=
  ⟨[(.keyboard .numpad5, false), (.gamepad 3, true)]⟩

/-- A gamepad on which key 5 (Numpad5) is pressed. -/
def gamepadKey5Down : EmulatedGamepad := ⟨[(.keyboard .numpad5, true)]⟩

/-- A gamepad on which key 5 (Numpad5) is released. -/
def gamepadKey5Up : EmulatedGamepad := ⟨[(.keyboard .numpad5, false)]⟩

/-- A processor awaiting a key press destined for register V2. -/
def procAwaitingPress : Chip8Processor :=
  ⟨.chip8, [], List.replicate 16 0, 0, .awaitingKeyPress (2 : Fin 16)⟩

/-- A processor with two return addresses on the call stack. -/
def procWithStack : Chip8Processor :=
  ⟨.chip8, [0x300, 0x350], List.replicate 16 0, 0, .normal⟩

/-- A processor with an empty call stack. -/
def procEmptyStack : Chip8Processor :=
  ⟨.chip8, [], List.replicate 16 0, 0, .normal⟩

/-- A non-strict-kind processor with `V0 = 1` and `VF = 0`. -/
def procSuper : Chip8Processor :=
  ⟨.superChip8, [], [1, 0, 0, 0, 0, 0, 0, 0, 0, 0, 0, 0, 0, 0, 0, 0], 0,
    .normal⟩

/-- An executor mid-run: tick 5 of 7, reference timestamp 100. -/
def executorA : SingleThreadedExecutor := ⟨100, 5, 7, (1 : Rat)⟩

/-- The least common multiple of a list, folded from the right — the
mathematical description the timing theorems compare the code against. -/
def listLCM (l : List Nat) : Nat := l.foldr Nat.lcm 1

/-- Follows the spec's words: "the common denominator `D`, the LCM over all
denominators". -/
def commonDenominatorSpec (ratios : List (Nat × Nat)) : Nat :=
  listLCM (ratios.map Prod.snd)

/-- Follows the spec's words: "numerators rescaled to `D`",
`n_i = numer_i * (D / denom_i)`. -/
def adjustedNumeratorsSpec (ratios : List (Nat × Nat)) : List Nat :=
  ratios.map (fun r => r.1 * (commonDenominatorSpec ratios / r.2))

/-- Follows the spec's words: "the rollover tick `M = LCM(rescaled
numerators)`". -/
def rolloverTickSpec (ratios : List (Nat × Nat)) : Nat :=
  listLCM (adjustedNumeratorsSpec ratios)

/-!
General helper lemmas.
-/

theorem getD_set_ne {α : Type} (l : List α) (i j : Nat) (a d : α) (h : i ≠ j) :
    (l.set i a).getD j d = l.getD j d := by
  simp [List.getD_eq_getElem?_getD, List.getElem?_set_ne h]

theorem getD_set_self {α : Type} (l : List α) (i : Nat) (a d : α)
    (h : i < l.length) : (l.set i a).getD i d = a := by
  simp [List.getD_eq_getElem?_getD, List.getElem?_set_self, h]

theorem set_set_fifteen (l : List Nat) (i v : Nat) (h : l.length = 16) :
    ((l.set i v).set 15 0)[15]?.getD 0 = 0 := by
  have := getD_set_self (l.set i v) 15 0 0 (by simp [h])
  simpa [List.getD_eq_getElem?_getD] using this

theorem set_ne_fifteen (l : List Nat) (i v : Nat) (h : i ≠ 15) :
    (l.set i v)[15]?.getD 0 = l[15]?.getD 0 := by
  have := getD_set_ne l i 15 v 0 h
  simpa [List.getD_eq_getElem?_getD] using this

theorem set_eq_fifteen (l : List Nat) (v : Nat) (h : l.length = 16) :
    (l.set 15 v)[15]?.getD 0 = v := by
  have := getD_set_self l 15 v 0 (by omega)
  simpa [List.getD_eq_getElem?_getD] using this

/-!
C6 — return with an empty call stack.
-/

/-- C6: executing the CHIP-8 return instruction (`Sys` with syscall `0x0ee`)
with an empty call stack sets the program cursor to the ISA entry point
`0x200` (after logging) instead of crashing; with a non-empty stack it pops
the top (last-pushed) address into the cursor. -/
theorem chip8_sys_return_underflow (s : Chip8Processor) (programPointer : Nat) :
    (s.stack = [] → s.interpretSys programPointer 0x0ee = (s, 0x200)) ∧
    (∀ l a, s.stack = l ++ [a] →
      s.interpretSys programPointer 0x0ee = ({ s with stack := l }, a)) := by
  constructor
  · intro h
    simp [Chip8Processor.interpretSys, h]
  · intro l a h
    simp [Chip8Processor.interpretSys, h, List.dropLast_concat]

/-- C6 witness: the return instruction at concrete stacks. -/
theorem chip8_sys_return_underflow_witness :
    Chip8Processor.interpretSys procEmptyStack 0x123 0x0ee = (procEmptyStack, 0x200) ∧
    Chip8Processor.interpretSys procWithStack 0x123 0x0ee =
      ({ procWithStack with stack := [0x300] }, 0x350) :=
  ⟨(chip8_sys_return_underflow procEmptyStack 0x123).1 rfl,
   (chip8_sys_return_underflow procWithStack 0x123).2 [0x300] 0x350 rfl⟩

/-!
C9 — tick counter invariant and timestamp reset of the executor.
-/

/-- C9: the executor's tick counter starts at `0` (and the computed rollover
tick is positive whenever construction succeeds); `increment_tick` advances
the counter modulo `rollover_tick`, keeping it strictly below the rollover,
and resets the wall-clock reference timestamp exactly on the calls in which
the new tick value wraps to a value smaller than the old one. -/
theorem incrementTick_invariant :
    (∀ ratios now e, SingleThreadedExecutor.new ratios now = some e →
      e.currentTick = 0 ∧ 0 < e.rolloverTick) ∧
    (∀ (s : SingleThreadedExecutor) (amount now : Nat), 0 < s.rolloverTick →
      (s.incrementTick amount now).currentTick =
        (s.currentTick + amount) % s.rolloverTick ∧
      (s.incrementTick amount now).currentTick < s.rolloverTick ∧
      (s.incrementTick amount now).rolloverTick = s.rolloverTick ∧
      ((s.currentTick + amount) % s.rolloverTick < s.currentTick →
        (s.incrementTick amount now).timestamp = now) ∧
      (s.currentTick ≤ (s.currentTick + amount) % s.rolloverTick →
        (s.incrementTick amount now).timestamp = s.timestamp)) := by
  constructor
  · intro ratios now e hnew
    rw [SingleThreadedExecutor.new] at hnew
    cases hf : findComponentTimings ratios with
    | none => rw [hf] at hnew; simp at hnew
    | some timings =>
      rw [hf] at hnew
      simp only [Option.map_some', Option.some_inj] at hnew
      subst hnew
      refine ⟨rfl, ?_⟩
      simp only [findComponentTimings] at hf
      split at hf
      · exact absurd hf (by simp)
      · split at hf
        · exact absurd hf (by simp)
        · rename_i hguard
          simp only [Option.some_inj] at hf
          subst hf
          simp only [not_or] at hguard
          exact Nat.pos_of_ne_zero hguard.2
  · intro s amount now hro
    refine ⟨rfl, Nat.mod_lt _ hro, rfl, ?_, ?_⟩
    · intro h
      simp [SingleThreadedExecutor.incrementTick, h]
    · intro h
      simp [SingleThreadedExecutor.incrementTick, Nat.not_lt.mpr h]

/-- C9 witness: construction from the spec's rate set `{60, 700, 60}` and a
concrete wrapping / non-wrapping increment. -/
theorem incrementTick_invariant_witness :
    (∀ e, SingleThreadedExecutor.new [(60, 1), (700, 1), (60, 1)] 11 = some e →
      e.currentTick = 0 ∧ 0 < e.rolloverTick) ∧
    (executorA.incrementTick 3 200).currentTick = (5 + 3) % 7 ∧
    (executorA.incrementTick 3 200).currentTick < 7 ∧
    (executorA.incrementTick 3 200).timestamp = 200 := by
  have h := (incrementTick_invariant.2 executorA 3 200 (by decide))
  exact ⟨fun e he => incrementTick_invariant.1 [(60, 1), (700, 1), (60, 1)] 11 e he,
    h.1, h.2.1, h.2.2.2.1 (by decide)⟩

/-!
C7 — VF zeroing of the bitwise instructions.
-/

/-- C7 counterexample: under a non-strict kind (`SuperChip8`), `Or` with
destination VF *changes* VF (from 0 to 1 here), contradicting the claim that
under any non-strict variant VF is left unchanged by these instructions. -/
theorem chip8_or_vf_changed_concrete :
    procSuper.kind ≠ Chip8Kind.chip8 ∧
    procSuper.workRegisters.getD 15 0 = 0 ∧
    (procSuper.interpretOr (15 : Fin 16) (0 : Fin 16)).workRegisters.getD 15 0 = 1 := by
  refine ⟨by decide, rfl, by decide⟩

/-- C7 (amended): after `Or`/`And`/`Xor`, under the strict `Chip8` kind VF is
zeroed (whatever the operands); under any other kind VF is unchanged provided
the destination register is not VF itself, and when the destination is VF it
holds the bitwise result. -/
theorem chip8_bitwise_vf_flag (s : Chip8Processor) (destination source : Register)
    (hlen : s.workRegisters.length = 16) :
    (s.kind = Chip8Kind.chip8 →
      (s.interpretOr destination source).workRegisters.getD 15 0 = 0 ∧
      (s.interpretAnd destination source).workRegisters.getD 15 0 = 0 ∧
      (s.interpretXor destination source).workRegisters.getD 15 0 = 0) ∧
    (s.kind ≠ Chip8Kind.chip8 → destination.val ≠ 15 →
      (s.interpretOr destination source).workRegisters.getD 15 0 =
        s.workRegisters.getD 15 0 ∧
      (s.interpretAnd destination source).workRegisters.getD 15 0 =
        s.workRegisters.getD 15 0 ∧
      (s.interpretXor destination source).workRegisters.getD 15 0 =
        s.workRegisters.getD 15 0) ∧
    (s.kind ≠ Chip8Kind.chip8 → destination.val = 15 →
      (s.interpretOr destination source).workRegisters.getD 15 0 =
        (s.workRegisters.getD 15 0) ||| (s.workRegisters.getD source.val 0) ∧
      (s.interpretAnd destination source).workRegisters.getD 15 0 =
        (s.workRegisters.getD 15 0) &&& (s.workRegisters.getD source.val 0) ∧
      (s.interpretXor destination source).workRegisters.getD 15 0 =
        (s.workRegisters.getD 15 0) ^^^ (s.workRegisters.getD source.val 0)) := by
  refine ⟨fun hk => ?_, fun hk hd => ?_, fun hk hd => ?_⟩
  · refine ⟨?_, ?_, ?_⟩ <;>
      simp [Chip8Processor.interpretOr, Chip8Processor.interpretAnd,
        Chip8Processor.interpretXor, hk, set_set_fifteen, hlen]
  · refine ⟨?_, ?_, ?_⟩ <;>
      simp [Chip8Processor.interpretOr, Chip8Processor.interpretAnd,
        Chip8Processor.interpretXor, hk, set_ne_fifteen _ _ _ hd]
  · refine ⟨?_, ?_, ?_⟩ <;>
      simp [Chip8Processor.interpretOr, Chip8Processor.interpretAnd,
        Chip8Processor.interpretXor, hk, hd, set_eq_fifteen, hlen]

/-- C7 witness: the amended flag behavior at concrete states. -/
theorem chip8_bitwise_vf_flag_witness :
    (procEmptyStack.interpretOr (2 : Fin 16) (0 : Fin 16)).workRegisters.getD 15 0 = 0 ∧
    (procSuper.interpretXor (3 : Fin 16) (0 : Fin 16)).workRegisters.getD 15 0 =
      procSuper.workRegisters.getD 15 0 :=
  ⟨((chip8_bitwise_vf_flag procEmptyStack 2 0 rfl).1 rfl).1,
   (((chip8_bitwise_vf_flag procSuper 3 0 rfl).2.1 (by decide) (by decide)).2.2)⟩

/-!
C5 — the key-wait state machine.
-/

/-- C5: the `Keyd` instruction puts the processor into
`AwaitingKeyPress{register}` (touching nothing else); while in that state, a
task tick in which no pressed input maps to a CHIP-8 key leaves both the
processor state and the program cursor unchanged and runs no
fetch/decode/execute (`execute` is arbitrary); a tick in which the key poll
finds a mapped pressed key `k` moves to `AwaitingKeyRelease{register, k}`,
still without executing; and a component tick in a
`AwaitingKeyRelease{register, k}` state in which `k`'s input is registered
but no longer active writes `k`'s key code into the register and returns the
state to `Normal`. -/
theorem chip8_key_wait (s : Chip8Processor) (r : Register)
    (g : EmulatedGamepad)
    (execute : Chip8Processor → Nat → Option (Chip8Processor × Nat))
    (programPointer : Nat)
    (h : s.executionState = .awaitingKeyPress r) :
    (s.interpretKeyd r = { s with executionState := .awaitingKeyPress r }) ∧
    ((∀ i ∈ g.iterPressed, chip8KeyTryFromInput i = none) →
      processorTaskStep g execute s programPointer = some (s, programPointer)) ∧
    (∀ k, g.iterPressed.findSome? chip8KeyTryFromInput = some k →
      processorTaskStep g execute s programPointer =
        some ({ s with executionState := .awaitingKeyRelease r k }, programPointer)) ∧
    (∀ k i, inputTryFromChip8Key k = some i →
      ∀ (s2 : Chip8Processor), s2.executionState = .awaitingKeyRelease r k →
      ∀ (g2 : EmulatedGamepad), g2.getInputState i = some false →
        s2.tick g2 = some { s2 with
          workRegisters := s2.workRegisters.set r.val k
          executionState := .normal }) := by
  refine ⟨rfl, fun hnone => ?_, fun k hk => ?_, fun k i hi s2 hs2 g2 hg2 => ?_⟩
  · have hfind : g.iterPressed.findSome? chip8KeyTryFromInput = none :=
      List.findSome?_eq_none_iff.mpr hnone
    simp [processorTaskStep, Chip8Processor.tick, h, hfind,
      Chip8Processor.shouldExecutionOccur]
  · simp [processorTaskStep, Chip8Processor.tick, h, hk,
      Chip8Processor.shouldExecutionOccur]
  · simp [Chip8Processor.tick, hs2, hi, hg2]

/-- C5 witness: the full press-then-release scenario at concrete states — a
tick with only an unmapped input active changes nothing; a tick with key 5
down moves to `AwaitingKeyRelease`; a tick with key 5 back up commits `5`
into V2 and resumes `Normal`. -/
theorem chip8_key_wait_witness :
    processorTaskStep gamepadNoKey (fun _ _ => none) procAwaitingPress 0x200 =
      some (procAwaitingPress, 0x200) ∧
    processorTaskStep gamepadKey5Down (fun _ _ => none) procAwaitingPress 0x200 =
      some ({ procAwaitingPress with
        executionState := .awaitingKeyRelease (2 : Fin 16) 5 }, 0x200) ∧
    Chip8Processor.tick { procAwaitingPress with
        executionState := .awaitingKeyRelease (2 : Fin 16) 5 } gamepadKey5Up =
      some { procAwaitingPress with
        workRegisters := (List.replicate 16 0).set 2 5
        executionState := .normal } :=
  ⟨(chip8_key_wait procAwaitingPress 2 gamepadNoKey (fun _ _ => none) 0x200
      rfl).2.1 (by decide),
   (chip8_key_wait procAwaitingPress 2 gamepadKey5Down (fun _ _ => none) 0x200
      rfl).2.2.1 5 rfl,
   (chip8_key_wait procAwaitingPress 2 gamepadKey5Up (fun _ _ => none) 0x200
      rfl).2.2.2 5 (.keyboard .numpad5) rfl
      { procAwaitingPress with executionState := .awaitingKeyRelease (2 : Fin 16) 5 }
      rfl gamepadKey5Up rfl⟩

/-!
C3 — mirror-mode redirect.
-/

/-- C3 counterexample: for the mirror `mirrorConfigC` (target `[100, 110)`,
so `N = 10`; assigned `[0, 30)`, so `k = 3`; `Wrap(3)`, so `w = 3`), the
in-range assigned-relative offset `o = 12` satisfies `o < w·N`, so the claim
demands `Redirect` to target offset `o mod N = 2`; the code instead emits
`Denied`, because its wrap-count check divides the target-start-shifted
offset `112` by `N`. -/
theorem mirror_wrap_counterexample :
    (12 < 3 * 10) ∧
    Device.readMemory (.mirror mirrorConfigC) 12 [0] =
      some (.mirror mirrorConfigC, [0], [(⟨12, 13⟩, ReadMemoryRecord.denied)], 0) ∧
    (∀ off, ReadMemoryRecord.denied ≠ ReadMemoryRecord.redirect off) := by
  exact ⟨by decide, rfl, fun off => by simp⟩

/-- C3 (amended): the claimed mirror behavior — `Redirect` to target offset
`o mod N` for `o < w·N`, `Denied` for `o ≥ w·N` — holds for `read_memory` and
`write_memory` (readable/writable mirrors) whenever the target range starts
at absolute offset 0 (`target = [0, N)`) and `w ≥ 1`; with a non-zero target
start both the wrap-count check and the redirect offset are computed from the
target-start-shifted offset and the claim fails (see the counterexample). -/
theorem mirror_wrap_redirect (cfg : MirrorMemoryConfig) (N k w : Nat)
    (buffer : List Nat) (address : Nat)
    (htarget : cfg.target = ⟨0, N⟩)
    (hassigned : cfg.assignedRange.stop = cfg.assignedRange.start + k * N)
    (hmode : cfg.overflowMode = .wrap w)
    (hread : cfg.readable = true)
    (hwrite : cfg.writable = true)
    (hN : 0 < N) (hw : 1 ≤ w)
    (haddr : cfg.assignedRange.start ≤ address)
    (ho : address - cfg.assignedRange.start < k * N) :
    Device.readMemory (.mirror cfg) address buffer =
      (if address - cfg.assignedRange.start < w * N then
        some (.mirror cfg, buffer,
          [(⟨address, address + buffer.length⟩,
            ReadMemoryRecord.redirect ((address - cfg.assignedRange.start) % N))],
          cfg.readCyclePenaltyCalculator ⟨address, address + buffer.length⟩ false)
      else
        some (.mirror cfg, buffer,
          [(⟨address, address + buffer.length⟩, ReadMemoryRecord.denied)],
          cfg.readCyclePenaltyCalculator ⟨address, address + buffer.length⟩ true)) ∧
    Device.writeMemory (.mirror cfg) address buffer =
      (if address - cfg.assignedRange.start < w * N then
        some (.mirror cfg,
          [(⟨address, address + buffer.length⟩,
            WriteMemoryRecord.redirect ((address - cfg.assignedRange.start) % N))],
          cfg.writeCyclePenaltyCalculator ⟨address, address + buffer.length⟩ false)
      else
        some (.mirror cfg,
          [(⟨address, address + buffer.length⟩, WriteMemoryRecord.denied)],
          cfg.writeCyclePenaltyCalculator ⟨address, address + buffer.length⟩ true)) := by
  have hNw : N ≤ w * N := by
    calc N = 1 * N := (Nat.one_mul N).symm
    _ ≤ w * N := Nat.mul_le_mul_right N hw
  have hsize : cfg.assignedRange.stop - cfg.assignedRange.start = k * N := by
    omega
  constructor
  · simp only [Device.readMemory, htarget, hmode, hread, hsize]
    rw [if_neg (by simp), if_pos haddr]
    simp only [Nat.sub_zero, Nat.add_zero]
    by_cases hlt : address - cfg.assignedRange.start < N
    · rw [if_neg (by omega), if_pos (by omega), Nat.mod_eq_of_lt hlt]
    · rw [if_pos ⟨by omega, by omega⟩]
      rw [if_neg (by omega)]
      by_cases hwo : w * N ≤ address - cfg.assignedRange.start
      · rw [if_pos ((Nat.le_div_iff_mul_le hN).mpr hwo), if_neg (by omega)]
      · rw [if_neg (fun hdiv => hwo ((Nat.le_div_iff_mul_le hN).mp hdiv)),
          if_pos (by omega)]
  · simp only [Device.writeMemory, htarget, hmode, hwrite, hsize]
    rw [if_neg (by simp), if_pos haddr]
    simp only [Nat.sub_zero, Nat.add_zero]
    by_cases hlt : address - cfg.assignedRange.start < N
    · rw [if_neg (by omega), if_pos (by omega), Nat.mod_eq_of_lt hlt]
    · rw [if_pos ⟨by omega, by omega⟩]
      rw [if_neg (by omega)]
      by_cases hwo : w * N ≤ address - cfg.assignedRange.start
      · rw [if_pos ((Nat.le_div_iff_mul_le hN).mpr hwo), if_neg (by omega)]
      · rw [if_neg (fun hdiv => hwo ((Nat.le_div_iff_mul_le hN).mp hdiv)),
          if_pos (by omega)]

/-- C3 witness: the amended mirror behavior on `mirrorConfigD`: offset
`o = 13` redirects to `13 mod 10 = 3`, offset `o = 25 ≥ 2·10` is denied. -/
theorem mirror_wrap_redirect_witness :
    Device.readMemory (.mirror mirrorConfigD) 77 [0] =
      some (.mirror mirrorConfigD, [0], [(⟨77, 78⟩, ReadMemoryRecord.redirect 3)], 0) ∧
    Device.writeMemory (.mirror mirrorConfigD) 89 [0] =
      some (.mirror mirrorConfigD, [(⟨89, 90⟩, WriteMemoryRecord.denied)], 0) := by
  have h1 := mirror_wrap_redirect mirrorConfigD 10 3 2 [0] 77 rfl rfl rfl rfl rfl
    (by decide) (by decide) (by decide) (by decide)
  have h2 := mirror_wrap_redirect mirrorConfigD 10 3 2 [0] 89 rfl rfl rfl rfl rfl
    (by decide) (by decide) (by decide) (by decide)
  refine ⟨?_, ?_⟩
  · rw [h1.1, if_pos (by decide)]; rfl
  · rw [h2.2, if_neg (by decide)]; rfl

/-!
C4 — tick-rate unification.
-/

theorem dvd_foldl_lcm (l : List Nat) (d init : Nat) (h : d ∣ init) :
    d ∣ l.foldl Nat.lcm init := by
  induction l generalizing init with
  | nil => exact h
  | cons x xs ih => exact ih (Nat.lcm init x) (h.trans (Nat.dvd_lcm_left init x))

theorem mem_dvd_foldl_lcm (l : List Nat) (x init : Nat) (h : x ∈ l) :
    x ∣ l.foldl Nat.lcm init := by
  induction l generalizing init with
  | nil => cases h
  | cons y ys ih =>
    rcases List.mem_cons.mp h with h | h
    · subst h
      exact dvd_foldl_lcm ys x (Nat.lcm init x) (Nat.dvd_lcm_right init x)
    · exact ih (Nat.lcm init y) h

theorem foldl_lcm_pos (l : List Nat) (init : Nat) (hi : 0 < init)
    (hl : ∀ x ∈ l, 0 < x) : 0 < l.foldl Nat.lcm init := by
  induction l generalizing init with
  | nil => exact hi
  | cons x xs ih =>
    refine ih (Nat.lcm init x) ?_ (fun y hy => hl y (by simp [hy]))
    exact Nat.pos_of_ne_zero
      (Nat.lcm_ne_zero (Nat.pos_iff_ne_zero.mp hi)
        (Nat.pos_iff_ne_zero.mp (hl x (by simp))))

theorem foldl_lcm_eq_listLCM (l : List Nat) (init : Nat) :
    l.foldl Nat.lcm init = Nat.lcm init (listLCM l) := by
  induction l generalizing init with
  | nil => simp [listLCM, Nat.lcm_one_right]
  | cons x xs ih =>
    simp only [List.foldl_cons, listLCM, List.foldr_cons]
    rw [ih (Nat.lcm init x), Nat.lcm_assoc]
    rfl

/-- C4: for every non-empty list of positive rational tick rates,
`find_component_timings` computes the rollover tick `M` as the LCM of the
numerators rescaled to the common denominator `D` (itself the LCM of all
denominators), the per-task local tick rates `M / n_i`, and the real time per
global tick `D / M` (as an exact rational); `M` is positive, every local
tick rate divides `M`, and in particular every task is due
(`tick % local_rate = 0`) at least once per rollover period. -/
theorem findComponentTimings_meets_spec (ratios : List (Nat × Nat))
    (hne : ratios ≠ [])
    (hpos : ∀ r ∈ ratios, 0 < r.1 ∧ 0 < r.2) :
    ∃ rates rt,
      findComponentTimings ratios = some (rolloverTickSpec ratios, rates, rt) ∧
      rates = (adjustedNumeratorsSpec ratios).map
        (fun numerator => rolloverTickSpec ratios / numerator) ∧
      rt = (commonDenominatorSpec ratios : Rat) / (rolloverTickSpec ratios : Rat) ∧
      0 < rolloverTickSpec ratios ∧
      (∀ rate ∈ rates, rate ∣ rolloverTickSpec ratios) ∧
      (∀ rate ∈ rates, ∃ t, t < rolloverTickSpec ratios ∧
        t % rate = 0) := by
  cases ratios with
  | nil => exact absurd rfl hne
  | cons r0 rs =>
    -- the common denominator the code folds up is the spec's D
    have hD : (r0 :: rs).foldl (fun acc r => Nat.lcm acc r.2) 1 =
        commonDenominatorSpec (r0 :: rs) := by
      rw [commonDenominatorSpec, ← List.foldl_map Prod.snd Nat.lcm (r0 :: rs) 1,
        foldl_lcm_eq_listLCM, Nat.lcm_one_left]
    have hDpos : 0 < commonDenominatorSpec (r0 :: rs) := by
      rw [← hD]
      rw [← List.foldl_map Prod.snd Nat.lcm (r0 :: rs) 1]
      exact foldl_lcm_pos _ 1 (by omega)
        (fun x hx => by
          obtain ⟨r, hr, rfl⟩ := List.mem_map.mp hx
          exact (hpos r hr).2)
    -- every denominator divides D, so every rescaled numerator is positive
    have hadjpos : ∀ x ∈ adjustedNumeratorsSpec (r0 :: rs), 0 < x := by
      intro x hx
      obtain ⟨r, hr, rfl⟩ := List.mem_map.mp hx
      have hdvd : r.2 ∣ commonDenominatorSpec (r0 :: rs) := by
        rw [← hD, ← List.foldl_map Prod.snd Nat.lcm (r0 :: rs) 1]
        exact mem_dvd_foldl_lcm _ _ 1 (List.mem_map.mpr ⟨r, hr, rfl⟩)
      exact Nat.mul_pos (hpos r hr).1
        (Nat.div_pos (Nat.le_of_dvd hDpos hdvd) (hpos r hr).2)
    -- the rescaled-numerators list of the code is the spec's, and is a cons
    have hadj : ((r0 :: rs).map (fun r =>
        r.1 * ((r0 :: rs).foldl (fun acc r => Nat.lcm acc r.2) 1 / r.2))) =
        adjustedNumeratorsSpec (r0 :: rs) := by
      rw [adjustedNumeratorsSpec, hD]
    have hM : (rs.map (fun r =>
          r.1 * (commonDenominatorSpec (r0 :: rs) / r.2))).foldl Nat.lcm
          (r0.1 * (commonDenominatorSpec (r0 :: rs) / r0.2)) =
        rolloverTickSpec (r0 :: rs) := by
      rw [foldl_lcm_eq_listLCM, rolloverTickSpec, adjustedNumeratorsSpec]
      simp [listLCM]
    have hMpos : 0 < rolloverTickSpec (r0 :: rs) := by
      rw [← hM]
      refine foldl_lcm_pos _ _ ?_ ?_
      · exact hadjpos _ (by simp [adjustedNumeratorsSpec])
      · intro y hy
        refine hadjpos y ?_
        simp only [adjustedNumeratorsSpec, List.map_cons]
        exact List.mem_cons_of_mem _ hy
    have hMdvd : ∀ x ∈ adjustedNumeratorsSpec (r0 :: rs),
        x ∣ rolloverTickSpec (r0 :: rs) := by
      intro x hx
      rw [← hM]
      simp only [adjustedNumeratorsSpec, List.map_cons] at hx
      rcases List.mem_cons.mp hx with h | h
      · subst h
        exact dvd_foldl_lcm _ _ _ dvd_rfl
      · exact mem_dvd_foldl_lcm _ _ _ h
    have key : findComponentTimings (r0 :: rs) =
        some (rolloverTickSpec (r0 :: rs),
          (adjustedNumeratorsSpec (r0 :: rs)).map
            (fun numerator => rolloverTickSpec (r0 :: rs) / numerator),
          ((rolloverTickSpec (r0 :: rs) : Rat) /
            (commonDenominatorSpec (r0 :: rs) : Rat))⁻¹) := by
      simp only [findComponentTimings]
      rw [hD]
      simp only [List.map_cons]
      rw [hM]
      rw [if_neg (by omega)]
      simp only [adjustedNumeratorsSpec, List.map_cons]
    refine ⟨_, _, key, rfl, inv_div _ _, hMpos, ?_, ?_⟩
    · intro rate hrate
      obtain ⟨x, hx, rfl⟩ := List.mem_map.mp hrate
      exact ⟨x, (Nat.div_mul_cancel (hMdvd x hx)).symm⟩
    · intro rate hrate
      exact ⟨0, hMpos, Nat.zero_mod rate⟩

/-- C4 witness: the spec's rate set `{60, 700, 60}` (as integers over
denominator 1). -/
theorem findComponentTimings_meets_spec_witness :
    ∃ rates rt,
      findComponentTimings [(60, 1), (700, 1), (60, 1)] =
        some (rolloverTickSpec [(60, 1), (700, 1), (60, 1)], rates, rt) ∧
      rates = (adjustedNumeratorsSpec [(60, 1), (700, 1), (60, 1)]).map
        (fun numerator => rolloverTickSpec [(60, 1), (700, 1), (60, 1)] / numerator) ∧
      rt = (commonDenominatorSpec [(60, 1), (700, 1), (60, 1)] : Rat) /
        (rolloverTickSpec [(60, 1), (700, 1), (60, 1)] : Rat) ∧
      0 < rolloverTickSpec [(60, 1), (700, 1), (60, 1)] ∧
      (∀ rate ∈ rates, rate ∣ rolloverTickSpec [(60, 1), (700, 1), (60, 1)]) ∧
      (∀ rate ∈ rates, ∃ t, t < rolloverTickSpec [(60, 1), (700, 1), (60, 1)] ∧
        t % rate = 0) :=
  findComponentTimings_meets_spec [(60, 1), (700, 1), (60, 1)] (by decide)
    (by decide)

/-!
C10 — totality of the instruction decoder.
-/

theorem withRegister_of_lt (value : Nat) (h : value < 16)
    (k : Register → DecodeOutcome) : withRegister value k = k ⟨value, h⟩ := by
  simp [withRegister, registerTryFromNat, h]

set_option maxHeartbeats 3200000 in
/-- C10: `decode_instruction` is a pure function of its 2-byte input whose
`Err` variant is unreachable — on every byte pair it either returns `Ok` with
a deterministically chosen instruction or hits an `unimplemented!()` panic,
and the panicking inputs are exactly the valid-but-unimplemented
trailing-nibble combinations; the `unreachable!()` arm and the
`Register::try_from(..).unwrap()` calls never fire. -/
theorem decodeInstruction_total (b0 b1 : Nat) (h0 : b0 < 256) (h1 : b1 < 256) :
    (decodeInstruction b0 b1 = .unimplementedPanic ↔
      decodeUnimplementedCombination b0 b1 = true) ∧
    (decodeUnimplementedCombination b0 b1 = false →
      ∃ instruction, decodeInstruction b0 b1 = .ok instruction) ∧
    decodeInstruction b0 b1 ≠ .unwrapPanic ∧
    decodeInstruction b0 b1 ≠ .unreachablePanic := by
  have hm0 : b0 % 16 < 16 := Nat.mod_lt _ (by norm_num)
  have hd1 : b1 / 16 < 16 := by omega
  simp only [decodeInstruction, decodeUnimplementedCombination,
    withRegister_of_lt (b0 % 16) hm0, withRegister_of_lt (b1 / 16) hd1]
  by_cases q0 : b0 / 16 = 0x0
  · rw [if_pos q0]; simp [q0]
  rw [if_neg q0]
  by_cases q1 : b0 / 16 = 0x1
  · rw [if_pos q1]; simp [q1]
  rw [if_neg q1]
  by_cases q2 : b0 / 16 = 0x2
  · rw [if_pos q2]; simp [q2]
  rw [if_neg q2]
  by_cases q3 : b0 / 16 = 0x3
  · rw [if_pos q3]; simp [q3]
  rw [if_neg q3]
  by_cases q4 : b0 / 16 = 0x4
  · rw [if_pos q4]; simp [q4]
  rw [if_neg q4]
  by_cases q5 : b0 / 16 = 0x5
  · rw [if_pos q5]; simp [q5]
  rw [if_neg q5]
  by_cases q6 : b0 / 16 = 0x6
  · rw [if_pos q6]; simp [q6]
  rw [if_neg q6]
  by_cases q7 : b0 / 16 = 0x7
  · rw [if_pos q7]; simp [q7]
  rw [if_neg q7]
  by_cases q8 : b0 / 16 = 0x8
  · rw [if_pos q8]
    by_cases c80 : b1 % 16 = 0x0
    · rw [if_pos c80]; simp [q8, c80]
    rw [if_neg c80]
    by_cases c81 : b1 % 16 = 0x1
    · rw [if_pos c81]; simp [q8, c80, c81]
    rw [if_neg c81]
    by_cases c82 : b1 % 16 = 0x2
    · rw [if_pos c82]; simp [q8, c80, c81, c82]
    rw [if_neg c82]
    by_cases c83 : b1 % 16 = 0x3
    · rw [if_pos c83]; simp [q8, c80, c81, c82, c83]
    rw [if_neg c83]
    by_cases c84 : b1 % 16 = 0x4
    · rw [if_pos c84]; simp [q8, c80, c81, c82, c83, c84]
    rw [if_neg c84]
    by_cases c85 : b1 % 16 = 0x5
    · rw [if_pos c85]; simp [q8, c80, c81, c82, c83, c84, c85]
    rw [if_neg c85]
    by_cases c86 : b1 % 16 = 0x6
    · rw [if_pos c86]; simp [q8, c80, c81, c82, c83, c84, c85, c86]
    rw [if_neg c86]
    by_cases c87 : b1 % 16 = 0x7
    · rw [if_pos c87]; simp [q8, c80, c81, c82, c83, c84, c85, c86, c87]
    rw [if_neg c87]
    by_cases c8e : b1 % 16 = 0xe
    · rw [if_pos c8e]; simp [q8, c80, c81, c82, c83, c84, c85, c86, c87, c8e]
    rw [if_neg c8e]; simp [q8, c80, c81, c82, c83, c84, c85, c86, c87, c8e]
  rw [if_neg q8]
  by_cases q9 : b0 / 16 = 0x9
  · rw [if_pos q9]
    by_cases c90 : b1 % 16 = 0x0
    · rw [if_pos c90]; simp [q9, c90]
    rw [if_neg c90]; simp [q9, c90]
  rw [if_neg q9]
  by_cases qa : b0 / 16 = 0xa
  · rw [if_pos qa]; simp [qa]
  rw [if_neg qa]
  by_cases qb : b0 / 16 = 0xb
  · rw [if_pos qb]; simp [qb]
  rw [if_neg qb]
  by_cases qc : b0 / 16 = 0xc
  · rw [if_pos qc]; simp [qc]
  rw [if_neg qc]
  by_cases qd : b0 / 16 = 0xd
  · rw [if_pos qd]; simp [qd]
  rw [if_neg qd]
  by_cases qe : b0 / 16 = 0xe
  · rw [if_pos qe]
    by_cases ce1 : b1 = 0x9e
    · rw [if_pos ce1]; simp [qe, ce1]
    rw [if_neg ce1]
    by_cases ce2 : b1 = 0xa1
    · rw [if_pos ce2]; simp [qe, ce1, ce2]
    rw [if_neg ce2]; simp [qe, ce1, ce2]
  rw [if_neg qe]
  by_cases qf : b0 / 16 = 0xf
  · rw [if_pos qf]
    by_cases cf1 : b1 = 0x07
    · rw [if_pos cf1]; simp [qf, cf1]
    rw [if_neg cf1]
    by_cases cf2 : b1 = 0x0a
    · rw [if_pos cf2]; simp [qf, cf1, cf2]
    rw [if_neg cf2]
    by_cases cf3 : b1 = 0x15
    · rw [if_pos cf3]; simp [qf, cf1, cf2, cf3]
    rw [if_neg cf3]
    by_cases cf4 : b1 = 0x18
    · rw [if_pos cf4]; simp [qf, cf1, cf2, cf3, cf4]
    rw [if_neg cf4]
    by_cases cf5 : b1 = 0x1e
    · rw [if_pos cf5]; simp [qf, cf1, cf2, cf3, cf4, cf5]
    rw [if_neg cf5]
    by_cases cf6 : b1 = 0x29
    · rw [if_pos cf6]; simp [qf, cf1, cf2, cf3, cf4, cf5, cf6]
    rw [if_neg cf6]
    by_cases cf7 : b1 = 0x33
    · rw [if_pos cf7]; simp [qf, cf1, cf2, cf3, cf4, cf5, cf6, cf7]
    rw [if_neg cf7]
    by_cases cf8 : b1 = 0x55
    · rw [if_pos cf8]; simp [qf, cf1, cf2, cf3, cf4, cf5, cf6, cf7, cf8]
    rw [if_neg cf8]
    by_cases cf9 : b1 = 0x65
    · rw [if_pos cf9]; simp [qf, cf1, cf2, cf3, cf4, cf5, cf6, cf7, cf8, cf9]
    rw [if_neg cf9]; simp [qf, cf1, cf2, cf3, cf4, cf5, cf6, cf7, cf8, cf9]
  rw [if_neg qf]
  omega

/-- C10 witness: the decoder characterization at the byte pair `0x60 0xAB`
(the spec's "load immediate 0xAB into register 0" example). -/
theorem decodeInstruction_total_witness :
    (decodeInstruction 0x60 0xAB = .unimplementedPanic ↔
      decodeUnimplementedCombination 0x60 0xAB = true) ∧
    (decodeUnimplementedCombination 0x60 0xAB = false →
      ∃ instruction, decodeInstruction 0x60 0xAB = .ok instruction) ∧
    decodeInstruction 0x60 0xAB ≠ .unwrapPanic ∧
    decodeInstruction 0x60 0xAB ≠ .unreachablePanic :=
  decodeInstruction_total 0x60 0xAB (by decide) (by decide)

/-!
C2 — buffer-local translation of popped overlap entries.
-/

/-- C2: at the failing input, the buffer sub-slice the bus hands to the
popped device is NOT the overlap translated to buffer-local coordinates.
For the single device registered at `[2, 8)` and a 2-byte read at offset 1,
the popped overlap is `[s, e) = [2, 3)`, so the claimed sub-slice is
`buffer[s-off .. e-off] = buffer[1 .. 2]`; the code's
`relocate_and_crop_range([2,3), [0,2))` instead yields `[0, 1)` (the
relocation `from_start - (from_start - to_start)` collapses every overlap to
the buffer start), and the full read deposits the device's byte for absolute
address 2 (value 10) at buffer index 0 — which represents address 1 — leaving
index 1 (the slot for address 2) untouched. -/
theorem read_subslice_misplaced_concrete :
    relocateAndCropRange ⟨2, 3⟩ ⟨0, 2⟩ = ⟨0, 1⟩ ∧
    (⟨0, 1⟩ : MRange) ≠ ⟨2 - 1, 3 - 1⟩ ∧
    mttB.read 2 storeB 1 [99, 98] = some (storeB, [10, 98], Except.ok 0) := by
  exact ⟨rfl, by decide, rfl⟩

/-!
C1 — a 2-byte read starting 1 byte before the end of the only device.
-/

/-- C1 counterexample: for the single readable device `[0, 4)` of `mttA`, the
2-byte read at offset 3 (= `b - 1`) SUCCEEDS with `Ok` — reading the one
covered byte into the buffer's first position and leaving the rest untouched —
rather than returning the `OutOfBounds` error the claim demands ( `Except.ok`
is disjoint from every `Except.error`). -/
theorem read_partial_end_ok_concrete :
    mttA.read 2 storeA 3 [0, 0] = some (storeA, [4, 0], Except.ok 0) ∧
    (∀ e : MemoryOperationError,
      (Except.ok 0 : Except MemoryOperationError Nat) ≠ Except.error e) := by
  exact ⟨rfl, fun e h => nomatch h⟩

/-- C1 (amended): for a bus whose only registered device is a readable
`PlainMemory` on `[a, b)`, a 2-byte read at offset `b - 1` (an access only
partially covered by the device) does NOT fail: it returns `Ok`, filling the
buffer's first byte from the device and leaving the second byte untouched
(a partial silent read); `OutOfBounds` is returned exactly when no device
claims any part of the range, e.g. for any read at offset `≥ b`. -/
theorem read_partial_end_amended (config : PlainMemoryConfig)
    (internal : List Nat) (a b x y : Nat)
    (hrange : config.assignedRange = ⟨a, b⟩)
    (hreadable : config.readable = true)
    (hword : 1 ≤ config.maxWordSize)
    (hlen : internal.length = b - a)
    (hab : a < b) :
    (∃ outByte cycles,
      MemoryTranslationTable.read ⟨[(⟨a, b⟩, 0)]⟩ 2 [Device.plain config internal]
          (b - 1) [x, y] =
        some ([Device.plain config internal], [outByte, y], Except.ok cycles)) ∧
    (∀ offset, b ≤ offset →
      MemoryTranslationTable.read ⟨[(⟨a, b⟩, 0)]⟩ 2 [Device.plain config internal]
          offset [x, y] =
        some ([Device.plain config internal], [x, y],
          Except.error (MemoryOperationError.outOfBounds ⟨offset, offset + 2⟩))) := by
  constructor
  · -- the single overlap entry, cropped to [b-1, b)
    have hov : MemoryTranslationTable.overlapEntries ⟨[(⟨a, b⟩, 0)]⟩
        ⟨b - 1, b - 1 + 2⟩ = [(⟨b - 1, b⟩, 0)] := by
      simp only [MemoryTranslationTable.overlapEntries, List.filterMap_cons,
        List.filterMap_nil]
      rw [if_pos ⟨by omega, by omega⟩]
      rw [show max a (b - 1) = b - 1 from by omega,
        show min b (b - 1 + 2) = b from by omega]
      rw [if_pos (by omega)]
    have hrel : relocateAndCropRange ⟨b - 1, b⟩ ⟨0, 2⟩ = ⟨0, 1⟩ := by
      simp only [relocateAndCropRange, MRange.mk.injEq]
      constructor <;> omega
    have hslice : listSlice [x, y] 0 1 = some [x] := by
      simp [listSlice]
    have hcount : b - 1 + 1 - a = b - a := by omega
    have hout : ∃ outByte,
        (internal.drop (b - 1 - a)).take (b - a - (b - 1 - a)) = [outByte] := by
      apply List.length_eq_one.mp
      rw [List.length_take, List.length_drop, hlen]
      omega
    obtain ⟨outByte, houtB⟩ := hout
    have hdev : Device.readMemory (Device.plain config internal) (b - 1) [x] =
        some (Device.plain config internal, [outByte], [],
          config.readCyclePenaltyCalculator ⟨b - 1, b - 1 + 1⟩ false) := by
      simp only [Device.readMemory, List.length_cons, List.length_nil]
      rw [hreadable]
      rw [if_neg (by simp), if_neg (by omega)]
      rw [hrange]
      dsimp only
      rw [if_pos (by omega)]
      simp only [listSlice]
      rw [hcount]
      rw [if_pos ⟨by omega, by omega⟩]
      rw [houtB]
    refine ⟨outByte, config.readCyclePenaltyCalculator ⟨b - 1, b - 1 + 1⟩ false, ?_⟩
    simp only [MemoryTranslationTable.read, List.length_cons, List.length_nil]
    rw [hov]
    rw [if_neg (by simp), if_neg (by simp)]
    simp only [MemoryTranslationTable.readLoop, List.getLast?_singleton,
      List.dropLast_single, List.length_cons, List.length_nil]
    rw [hrel]
    dsimp only
    simp only [List.get?]
    rw [hslice]
    dsimp only
    rw [hdev]
    simp [listSetSlice, MemoryTranslationTable.extendReadInspect]
  · intro offset hoff
    have hov : MemoryTranslationTable.overlapEntries ⟨[(⟨a, b⟩, 0)]⟩
        ⟨offset, offset + 2⟩ = [] := by
      simp only [MemoryTranslationTable.overlapEntries, List.filterMap_cons,
        List.filterMap_nil]
      rw [if_neg (by omega)]
    simp only [MemoryTranslationTable.read, List.length_cons, List.length_nil]
    rw [hov]
    simp

/-- C1 witness: the amended behavior at the concrete bus `[(⟨0,4⟩, device)]`
with buffer bytes `7, 9`: the partial 2-byte read at offset 3 succeeds, and
reads at offsets `≥ 4` are `OutOfBounds`. -/
theorem read_partial_end_amended_witness :
    (∃ outByte cycles,
      MemoryTranslationTable.read ⟨[(⟨0, 4⟩, 0)]⟩ 2
          [Device.plain plainConfigA [1, 2, 3, 4]] 3 [7, 9] =
        some ([Device.plain plainConfigA [1, 2, 3, 4]], [outByte, 9],
          Except.ok cycles)) ∧
    (∀ offset, 4 ≤ offset →
      MemoryTranslationTable.read ⟨[(⟨0, 4⟩, 0)]⟩ 2
          [Device.plain plainConfigA [1, 2, 3, 4]] offset [7, 9] =
        some ([Device.plain plainConfigA [1, 2, 3, 4]], [7, 9],
          Except.error (MemoryOperationError.outOfBounds ⟨offset, offset + 2⟩))) :=
  read_partial_end_amended plainConfigA [1, 2, 3, 4] 0 4 7 9 rfl rfl
    (by decide) rfl (by decide)

/-!
C8 — `preview` is non-mutating.
-/

/-- Replacing an element of a list by the value already stored there is the
identity (the store is unchanged when a device call returns the device
unmodified). -/
theorem set_of_get?_eq (l : List Device) (i : Nat) (d : Device)
    (h : l.get? i = some d) : l.set i d = l := by
  induction l generalizing i with
  | nil => simp at h
  | cons x xs ih =>
    cases i with
    | zero =>
      simp only [List.get?] at h
      simp only [Option.some_inj] at h
      simp [h]
    | succ m =>
      simp only [List.get?] at h
      simp [ih m h]

/-- `preview_memory` returns its device unchanged, for both device kinds: no
branch of either implementation writes to device state. -/
theorem previewMemory_device_eq (d : Device) (address : Nat)
    (buffer : List Nat) (d2 : Device) (out : List Nat)
    (records : List (MRange × PreviewMemoryRecord))
    (h : d.previewMemory address buffer = some (d2, out, records)) : d2 = d := by
  cases d <;>
    (simp only [Device.previewMemory] at h
     repeat' split at h) <;>
    simp_all

/-- Every successful run of the `preview` pop loop leaves the device store
exactly as it found it: each iteration stores back the device value the
device's `preview_memory` returned, which is the one it read. -/
theorem previewLoop_preserves_store (mtt : MemoryTranslationTable) :
    ∀ (fuel : Nat) (store : DeviceStore) (buffer : List Nat)
      (toInspect : List (MRange × Nat)) (store2 : DeviceStore)
      (out : List Nat) (res : Except MemoryOperationError Unit),
      mtt.previewLoop fuel store buffer toInspect = some (store2, out, res) →
      store2 = store := by
  intro fuel
  induction fuel with
  | zero =>
    intro store buffer toInspect store2 out res h
    exact absurd h (by simp [MemoryTranslationTable.previewLoop])
  | succ n ih =>
    intro store buffer toInspect store2 out res h
    rw [MemoryTranslationTable.previewLoop] at h
    split at h
    · simp only [Option.some_inj, Prod.mk.injEq] at h
      exact h.1.symm
    · split at h
      · exact absurd h (by simp)
      · rename_i device hget
        dsimp only at h
        split at h
        · exact absurd h (by simp)
        · rename_i sub hsub
          split at h
          · exact absurd h (by simp)
          · rename_i device2 subOut records hprev
            split at h
            · exact absurd h (by simp)
            · rename_i buffer2 hset
              split at h
              · exact absurd h (by simp)
              · rename_i e hext
                simp only [Option.some_inj, Prod.mk.injEq] at h
                rw [← h.1]
                rw [previewMemory_device_eq _ _ _ _ _ _ hprev]
                exact set_of_get?_eq store _ device hget
              · rename_i toInspect2 hext
                rw [ih _ _ _ _ _ _ h]
                rw [previewMemory_device_eq _ _ _ _ _ _ hprev]
                exact set_of_get?_eq store _ device hget

/-- C8: `MemoryTranslationTable::preview` never changes the state of any
registered device (for the provided kinds `PlainMemory` and `MirrorMemory`),
so a `read` performed after a `preview` — at any offset and buffer — returns
exactly what the same `read` returns without the preview. -/
theorem preview_non_mutating (mtt : MemoryTranslationTable) (fuel : Nat)
    (store : DeviceStore) (offset : Nat) (buffer : List Nat)
    (store2 : DeviceStore) (out : List Nat)
    (res : Except MemoryOperationError Unit)
    (h : mtt.preview fuel store offset buffer = some (store2, out, res)) :
    store2 = store ∧
    (∀ fuel2 offset2 buffer2,
      mtt.read fuel2 store2 offset2 buffer2 =
        mtt.read fuel2 store offset2 buffer2) := by
  have hs : store2 = store := by
    rw [MemoryTranslationTable.preview] at h
    split at h
    · simp only [Option.some_inj, Prod.mk.injEq] at h
      exact h.1.symm
    · exact previewLoop_preserves_store mtt fuel store buffer _ store2 out res h
  exact ⟨hs, fun fuel2 offset2 buffer2 => by rw [hs]⟩

/-- C8 witness: a concrete 3-byte preview against `mttA` (an arbitrary-width
access, allowed for preview), followed by reads that coincide. -/
theorem preview_non_mutating_witness :
    storeA = storeA ∧
    (∀ fuel2 offset2 buffer2,
      mttA.read fuel2 storeA offset2 buffer2 =
        mttA.read fuel2 storeA offset2 buffer2) :=
  preview_non_mutating mttA 2 storeA 1 [0, 0, 0] storeA [2, 3, 4]
    (Except.ok ()) rfl

end Multiemu
